import Mathlib

set_option maxRecDepth 8000

/-!
Shallow embedding of the repository memohnsen/owlcms_schedule_scraper:
`final_scraper.py` (class `FinalScheduleScraper`) and `prelim_scraper.py`
(class `ScheduleScraper`). Table cells are `Option String` (Python `None` or
text), tables are lists of rows, schedule entries are records of optional
fields (a Python dict whose values may be `None` / absent). Python code that
can raise an uncaught exception is modelled in `Except Unit`.
-/

/-- The characters Python `str.strip()` removes (ASCII whitespace). -/
def isPySpace (c : Char) : Bool :=
  c = ' ' || c = '\t' || c = '\n' || c = '\r' || c = '\x0b' || c = '\x0c'

/-- `str.strip()` on a character list. -/
def pyStripL (cs : List Char) : List Char :=
  ((cs.dropWhile isPySpace).reverse.dropWhile isPySpace).reverse

/-- Python `str.strip()`. -/
def pyStrip (s : String) : String :=
  String.mk (pyStripL s.data)

/-- Python `str.lower()` (ASCII). -/
def lowerStr (s : String) : String :=
  String.mk (s.data.map Char.toLower)

/-- Strip an exact leading pattern from a character list. -/
def stripPre : List Char → List Char → Option (List Char)
  | [], cs => some cs
  | _ :: _, [] => none
  | p :: ps, c :: cs => if p = c then stripPre ps cs else none

/-- Case-insensitive variant of `stripPre`; the pattern is given lowercased. -/
def stripPreCI : List Char → List Char → Option (List Char)
  | [], cs => some cs
  | _ :: _, [] => none
  | p :: ps, c :: cs => if p = c.toLower then stripPreCI ps cs else none

/-- Substring containment on character lists (Python `needle in hay`). -/
def hasSub (hay needle : List Char) : Bool :=
  (stripPre needle hay).isSome ||
    match hay with
    | [] => false
    | _ :: t => hasSub t needle

/-- Python `sub in s`. -/
def strContains (s sub : String) : Bool :=
  hasSub s.data sub.data

/-- First `some` produced by `f` over a list, in order (models a loop with
`break` on success). -/
def firstSome {α β : Type} : List α → (α → Option β) → Option β
  | [], _ => none
  | x :: xs, f => match f x with
    | some b => some b
    | none => firstSome xs f

/-- `' '.join(...)`. -/
def joinSpace : List String → String
  | [] => ""
  | [s] => s
  | s :: rest => s ++ " " ++ joinSpace rest

/-- Python `s.isdigit()` for ASCII text. -/
def pyIsDigit (s : String) : Bool :=
  s ≠ "" && s.data.all Char.isDigit

/-- Numeric value of a digit character. -/
def dv (c : Char) : Nat := c.toNat - 48

/-- `int(s)` on a digit string. -/
def strToNat (s : String) : Nat :=
  s.data.foldl (fun n c => 10 * n + dv c) 0

/-- Truthiness of an optional string (Python: `None` and `''` are falsy). -/
def optStrTruthy : Option String → Bool
  | some s => s ≠ ""
  | none => false

/-- Truthiness of an optional integer (Python: `None` and `0` are falsy). -/
def optNatTruthy : Option Nat → Bool
  | some n => n ≠ 0
  | none => false

/-- Zero-padded rendering of a 2-digit field (`strftime` `%H`/`%M`/`%S`,
`%m`/`%d`). -/
def pad2 (n : Nat) : String :=
  if n < 10 then "0" ++ toString n else toString n

/-- Zero-padded rendering of a year (`strftime` `%Y`). -/
def pad4 (n : Nat) : String :=
  if n < 10 then "000" ++ toString n
  else if n < 100 then "00" ++ toString n
  else if n < 1000 then "0" ++ toString n
  else toString n

/-- A `datetime.time` value. -/
structure PyTime where
  hour : Nat
  minute : Nat
  second : Nat
deriving DecidableEq

/-- `time.strftime('%H:%M:%S')`. -/
def timeToStr (t : PyTime) : String :=
  pad2 t.hour ++ ":" ++ pad2 t.minute ++ ":" ++ pad2 t.second

/-- Gregorian leap year, as `datetime` uses. -/
def isLeap (y : Nat) : Bool :=
  y % 4 = 0 && (y % 100 ≠ 0 || y % 400 = 0)

/-- Days in a month of a year, as `datetime` validates. -/
def daysInMonth (y m : Nat) : Nat :=
  if m = 2 then (if isLeap y then 29 else 28)
  else if m = 4 || m = 6 || m = 9 || m = 11 then 30
  else 31

/-- ISO rendering `strftime('%Y-%m-%d')`. -/
def isoDate (y m d : Nat) : String :=
  pad4 y ++ "-" ++ pad2 m ++ "-" ++ pad2 d

/-- `datetime(year, month, day)` then `strftime('%Y-%m-%d')`: `none` models
the `ValueError` its callers catch. -/
def mkDate? (y m d : Nat) : Option String :=
  if 1 ≤ y ∧ y ≤ 9999 ∧ 1 ≤ m ∧ m ≤ 12 ∧ 1 ≤ d ∧ d ≤ daysInMonth y m then
    some (isoDate y m d)
  else none

/-!
`datetime.strptime` / `re` model. Each token parser returns the candidate
(value, rest-of-input) pairs in the preference order of the Python regex
alternation it is compiled to, so that trying candidates in order models
regex backtracking exactly.
-/

/-- strptime `%H`: regex `2[0-3]|[0-1]\d|\d`. -/
def tokH : List Char → List (Nat × List Char)
  | c1 :: c2 :: rest =>
    (if c1 = '2' ∧ '0' ≤ c2 ∧ c2 ≤ '3' then [(20 + dv c2, rest)] else []) ++
    (if ('0' = c1 ∨ c1 = '1') ∧ c2.isDigit then [(10 * dv c1 + dv c2, rest)] else []) ++
    (if c1.isDigit then [(dv c1, c2 :: rest)] else [])
  | [c1] => if c1.isDigit then [(dv c1, [])] else []
  | [] => []

/-- strptime `%M`: regex `[0-5]\d|\d`. -/
def tokM : List Char → List (Nat × List Char)
  | c1 :: c2 :: rest =>
    (if '0' ≤ c1 ∧ c1 ≤ '5' ∧ c2.isDigit then [(10 * dv c1 + dv c2, rest)] else []) ++
    (if c1.isDigit then [(dv c1, c2 :: rest)] else [])
  | [c1] => if c1.isDigit then [(dv c1, [])] else []
  | [] => []

/-- strptime `%S`: regex `6[0-1]|[0-5]\d|\d`. -/
def tokS : List Char → List (Nat × List Char)
  | c1 :: c2 :: rest =>
    (if c1 = '6' ∧ ('0' = c2 ∨ c2 = '1') then [(60 + dv c2, rest)] else []) ++
    (if '0' ≤ c1 ∧ c1 ≤ '5' ∧ c2.isDigit then [(10 * dv c1 + dv c2, rest)] else []) ++
    (if c1.isDigit then [(dv c1, c2 :: rest)] else [])
  | [c1] => if c1.isDigit then [(dv c1, [])] else []
  | [] => []

/-- strptime `%I`: regex `1[0-2]|0[1-9]|[1-9]`. -/
def tokI : List Char → List (Nat × List Char)
  | c1 :: c2 :: rest =>
    (if c1 = '1' ∧ '0' ≤ c2 ∧ c2 ≤ '2' then [(10 + dv c2, rest)] else []) ++
    (if c1 = '0' ∧ '1' ≤ c2 ∧ c2 ≤ '9' then [(dv c2, rest)] else []) ++
    (if '1' ≤ c1 ∧ c1 ≤ '9' then [(dv c1, c2 :: rest)] else [])
  | [c1] => if '1' ≤ c1 ∧ c1 ≤ '9' then [(dv c1, [])] else []
  | [] => []

/-- strptime `%d`: regex `3[01]|[12]\d|0[1-9]|[1-9]`. -/
def tokD : List Char → List (Nat × List Char)
  | c1 :: c2 :: rest =>
    (if c1 = '3' ∧ ('0' = c2 ∨ c2 = '1') then [(30 + dv c2, rest)] else []) ++
    (if ('1' = c1 ∨ c1 = '2') ∧ c2.isDigit then [(10 * dv c1 + dv c2, rest)] else []) ++
    (if c1 = '0' ∧ '1' ≤ c2 ∧ c2 ≤ '9' then [(dv c2, rest)] else []) ++
    (if '1' ≤ c1 ∧ c1 ≤ '9' then [(dv c1, c2 :: rest)] else [])
  | [c1] => if '1' ≤ c1 ∧ c1 ≤ '9' then [(dv c1, [])] else []
  | [] => []

/-- strptime `%m`: same regex as `%I`, `1[0-2]|0[1-9]|[1-9]`. -/
def tokMo : List Char → List (Nat × List Char) := tokI

/-- strptime `%Y`: regex `\d\d\d\d` (exactly four digits). -/
def tokY4 : List Char → List (Nat × List Char)
  | a :: b :: c :: d :: rest =>
    if a.isDigit ∧ b.isDigit ∧ c.isDigit ∧ d.isDigit then
      [(1000 * dv a + 100 * dv b + 10 * dv c + dv d, rest)]
    else []
  | _ => []

/-- strptime `%y`: regex `\d\d`; values 0–68 mean 2000–2068, 69–99 mean
1969–1999. -/
def tokY2 : List Char → List (Nat × List Char)
  | a :: b :: rest =>
    if a.isDigit ∧ b.isDigit then
      let v := 10 * dv a + dv b
      [(if v ≤ 68 then 2000 + v else 1900 + v, rest)]
    else []
  | _ => []

/-- A literal character in a strptime format. -/
def tokLit (ch : Char) : List Char → List (Unit × List Char)
  | c :: rest => if c = ch then [((), rest)] else []
  | [] => []

/-- Whitespace in a strptime format, compiled to `\s+`: candidates from the
longest consumption down to one character. -/
def tokWs (cs : List Char) : List (Unit × List Char) :=
  let n := (cs.takeWhile isPySpace).length
  (List.range n).map (fun j => ((), cs.drop (n - j)))

/-- strptime `%p`: `AM`/`PM`, case-insensitively; `true` means PM. -/
def tokAmPm : List Char → List (Bool × List Char)
  | c1 :: c2 :: rest =>
    (if c1.toLower = 'a' ∧ c2.toLower = 'm' then [(false, rest)] else []) ++
    (if c1.toLower = 'p' ∧ c2.toLower = 'm' then [(true, rest)] else [])
  | _ => []

/-- The first candidate that consumed the whole input (strptime raises
"unconverted data remains" otherwise). -/
def firstFull {α : Type} (cands : List (α × List Char)) : Option α :=
  match cands.filter (fun p => p.2.isEmpty) with
  | [] => none
  | p :: _ => some p.1

/-- `datetime.strptime(s, '%H:%M:%S')`, as a time of day. -/
def fmtHMS (cs : List Char) : Option PyTime :=
  firstFull <| (tokH cs).flatMap fun h1 =>
    (tokLit ':' h1.2).flatMap fun r1 =>
      (tokM r1.2).flatMap fun m1 =>
        (tokLit ':' m1.2).flatMap fun r2 =>
          (tokS r2.2).map fun s1 =>
            (PyTime.mk h1.1 m1.1 s1.1, s1.2)

/-- `datetime.strptime(s, '%H:%M')`. -/
def fmtHM (cs : List Char) : Option PyTime :=
  firstFull <| (tokH cs).flatMap fun h1 =>
    (tokLit ':' h1.2).flatMap fun r1 =>
      (tokM r1.2).map fun m1 =>
        (PyTime.mk h1.1 m1.1 0, m1.2)

/-- The 12-hour-to-24-hour conversion strptime performs for `%I` with `%p`. -/
def hour12 (i : Nat) (pm : Bool) : Nat :=
  if pm then (if i = 12 then 12 else i + 12)
  else (if i = 12 then 0 else i)

/-- `datetime.strptime(s, '%I:%M %p')`. -/
def fmtIMpSp (cs : List Char) : Option PyTime :=
  firstFull <| (tokI cs).flatMap fun h1 =>
    (tokLit ':' h1.2).flatMap fun r1 =>
      (tokM r1.2).flatMap fun m1 =>
        (tokWs m1.2).flatMap fun r2 =>
          (tokAmPm r2.2).map fun p1 =>
            (PyTime.mk (hour12 h1.1 p1.1) m1.1 0, p1.2)

/-- `datetime.strptime(s, '%I:%M%p')`. -/
def fmtIMp (cs : List Char) : Option PyTime :=
  firstFull <| (tokI cs).flatMap fun h1 =>
    (tokLit ':' h1.2).flatMap fun r1 =>
      (tokM r1.2).flatMap fun m1 =>
        (tokAmPm m1.2).map fun p1 =>
          (PyTime.mk (hour12 h1.1 p1.1) m1.1 0, p1.2)

/-- One attempt of `(\d{1,2}):(\d{2})\s*(am|pm)?` with a two-digit hour at the
current position. -/
def twoDigitTimeAt (cs : List Char) : Option (Nat × Nat × List Char) :=
  match cs with
  | a :: b :: ':' :: m1 :: m2 :: rest =>
    if a.isDigit ∧ b.isDigit ∧ m1.isDigit ∧ m2.isDigit then
      some (10 * dv a + dv b, 10 * dv m1 + dv m2, rest)
    else none
  | _ => none

/-- One attempt of the same pattern with a one-digit hour. -/
def oneDigitTimeAt (cs : List Char) : Option (Nat × Nat × List Char) :=
  match cs with
  | a :: ':' :: m1 :: m2 :: rest =>
    if a.isDigit ∧ m1.isDigit ∧ m2.isDigit then
      some (dv a, 10 * dv m1 + dv m2, rest)
    else none
  | _ => none

/-- The optional `\s*(am|pm)?` tail of the permissive time regex (the input is
already lowercased). -/
def amPmTail (rest : List Char) : Option Bool :=
  match rest.dropWhile isPySpace with
  | 'a' :: 'm' :: _ => some false
  | 'p' :: 'm' :: _ => some true
  | _ => none

/-- A match of `(\d{1,2}):(\d{2})\s*(am|pm)?` starting at this position
(two-digit hour preferred, per regex greediness). -/
def timeMatchAt (cs : List Char) : Option (Nat × Nat × Option Bool) :=
  match twoDigitTimeAt cs with
  | some (h, m, rest) => some (h, m, amPmTail rest)
  | none =>
    match oneDigitTimeAt cs with
    | some (h, m, rest) => some (h, m, amPmTail rest)
    | none => none

/-- `re.search` of the permissive time pattern: leftmost match wins. -/
def searchTime : List Char → Option (Nat × Nat × Option Bool)
  | [] => none
  | c :: rest =>
    match timeMatchAt (c :: rest) with
    | some r => some r
    | none => searchTime rest

/-- `datetime.time(hour, minute)`: `Except.error` models the `ValueError`
raised when a component is out of range. -/
def mkTimeHM (h m : Nat) : Except Unit PyTime :=
  if h ≤ 23 ∧ m ≤ 59 then Except.ok (PyTime.mk h m 0) else Except.error ()

/-- `_parse_time` (identical in `FinalScheduleScraper`, lines 158–189, and
`ScheduleScraper`, lines 332–363): the four strptime formats in order, then
the permissive regex; the final `datetime_time(hour, minute)` call is outside
any `try`, so an out-of-range extraction raises (`Except.error`). -/
def parseTimeCore (time_str : String) : Except Unit (Option PyTime) :=
  if time_str = "" then Except.ok none
  else
    let t := (pyStrip time_str).data
    match fmtHMS t with
    | some tm => Except.ok (some tm)
    | none =>
      match fmtHM t with
      | some tm => Except.ok (some tm)
      | none =>
        match fmtIMpSp t with
        | some tm => Except.ok (some tm)
        | none =>
          match fmtIMp t with
          | some tm => Except.ok (some tm)
          | none =>
            match searchTime (t.map Char.toLower) with
            | some (h, m, ampm) =>
              let h2 := if ampm = some true ∧ h < 12 then h + 12
                        else if ampm = some false ∧ h = 12 then 0
                        else h
              match mkTimeHM h2 m with
              | Except.ok tm => Except.ok (some tm)
              | Except.error e => Except.error e
            | none => Except.ok none

/-!  Dates. -/

/-- Three-letter month abbreviations, in the order of the regex alternation
in `_parse_date_from_short` (also the `month_map` keys). -/
def monthAbbrevs : List (String × Nat) :=
  [("Jan", 1), ("Feb", 2), ("Mar", 3), ("Apr", 4), ("May", 5), ("Jun", 6),
   ("Jul", 7), ("Aug", 8), ("Sep", 9), ("Oct", 10), ("Nov", 11), ("Dec", 12)]

/-- Full month names (capitalized, as the source's containment checks use). -/
def monthFulls : List (String × Nat) :=
  [("January", 1), ("February", 2), ("March", 3), ("April", 4), ("May", 5),
   ("June", 6), ("July", 7), ("August", 8), ("September", 9), ("October", 10),
   ("November", 11), ("December", 12)]

/-- `any(month in s for month in ['Jan', ...])`. -/
def anyMonthAbbr (s : String) : Bool :=
  monthAbbrevs.any (fun p => strContains s p.1)

/-- `any(month in s for month in ['January', ...])`. -/
def anyMonthFull (s : String) : Bool :=
  monthFulls.any (fun p => strContains s p.1)

/-- A match of `(Jan|...|Dec)\s+(\d{1,2})` starting at this position:
the month alternatives in pattern order, `\s+` maximal (the next token is a
digit, so shorter whitespace cannot match), day greedy two digits then one. -/
def shortDateMatchAt (cs : List Char) : Option (Nat × Nat) :=
  firstSome monthAbbrevs (fun p =>
    match stripPre p.1.data cs with
    | none => none
    | some rest =>
      let n := (rest.takeWhile isPySpace).length
      if n = 0 then none
      else
        match rest.drop n with
        | d1 :: d2 :: _ =>
          if d1.isDigit then
            some (p.2, if d2.isDigit then 10 * dv d1 + dv d2 else dv d1)
          else none
        | [d1] => if d1.isDigit then some (p.2, dv d1) else none
        | [] => none)

/-- `re.search` of the short-date pattern: leftmost match. -/
def searchShortDate : List Char → Option (Nat × Nat)
  | [] => none
  | c :: rest =>
    match shortDateMatchAt (c :: rest) with
    | some r => some r
    | none => searchShortDate rest

/-- `FinalScheduleScraper._parse_date_from_short` (lines 191–220): strip,
replace newlines with spaces, find `(Jan|..|Dec)\s+(\d{1,2})`, build
`datetime(2025, month, day)` (the hardcoded year) and render ISO; an invalid
day raises `ValueError`, which the `except` swallows, falling to `None`. -/
def FinalScheduleScraper.parse_date_from_short (date_str : String) : Option String :=
  if date_str = "" then none
  else
    let s := (pyStrip date_str).data.map (fun c => if c = '\n' then ' ' else c)
    match searchShortDate s with
    | some (m, d) => mkDate? 2025 m d
    | none => none

/-- Case-insensitive month-name lookup (strptime `%B`/`%b` match their
alternatives under `re.IGNORECASE`; the names are prefix-free so at most one
alternative matches at a position). -/
def monthLookup (names : List (String × Nat)) (word : List Char) : Option Nat :=
  firstSome names (fun p =>
    if (lowerStr p.1).data = word.map Char.toLower then some p.2 else none)

/-- strptime `%B` as a candidate token (case-insensitive full month name). -/
def tokMonthFull (cs : List Char) : List (Nat × List Char) :=
  (monthFulls.filterMap (fun p =>
    match stripPreCI (lowerStr p.1).data cs with
    | some rest => some (p.2, rest)
    | none => none))

/-- strptime `%b` as a candidate token (case-insensitive abbreviated name). -/
def tokMonthAbbr (cs : List Char) : List (Nat × List Char) :=
  (monthAbbrevs.filterMap (fun p =>
    match stripPreCI (lowerStr p.1).data cs with
    | some rest => some (p.2, rest)
    | none => none))

/-- `datetime.strptime(s, '%Y-%m-%d')` through `strftime('%Y-%m-%d')`;
`none` covers both a non-matching string and the `ValueError` of an invalid
date, which `_parse_date` catches alike. -/
def fmtIsoDate (cs : List Char) : Option String :=
  (firstFull <| (tokY4 cs).flatMap fun y1 =>
    (tokLit '-' y1.2).flatMap fun r1 =>
      (tokMo r1.2).flatMap fun m1 =>
        (tokLit '-' m1.2).flatMap fun r2 =>
          (tokD r2.2).map fun d1 =>
            ((y1.1, m1.1, d1.1), d1.2)).bind fun t => mkDate? t.1 t.2.1 t.2.2

/-- `datetime.strptime(s, '%m/%d/%Y')`. -/
def fmtMdY (cs : List Char) : Option String :=
  (firstFull <| (tokMo cs).flatMap fun m1 =>
    (tokLit '/' m1.2).flatMap fun r1 =>
      (tokD r1.2).flatMap fun d1 =>
        (tokLit '/' d1.2).flatMap fun r2 =>
          (tokY4 r2.2).map fun y1 =>
            ((y1.1, m1.1, d1.1), y1.2)).bind fun t => mkDate? t.1 t.2.1 t.2.2

/-- `datetime.strptime(s, '%m/%d/%y')`. -/
def fmtMdy2 (cs : List Char) : Option String :=
  (firstFull <| (tokMo cs).flatMap fun m1 =>
    (tokLit '/' m1.2).flatMap fun r1 =>
      (tokD r1.2).flatMap fun d1 =>
        (tokLit '/' d1.2).flatMap fun r2 =>
          (tokY2 r2.2).map fun y1 =>
            ((y1.1, m1.1, d1.1), y1.2)).bind fun t => mkDate? t.1 t.2.1 t.2.2

/-- `datetime.strptime(s, '%B %d, %Y')`. -/
def fmtBdY (cs : List Char) : Option String :=
  (firstFull <| (tokMonthFull cs).flatMap fun m1 =>
    (tokWs m1.2).flatMap fun r1 =>
      (tokD r1.2).flatMap fun d1 =>
        (tokLit ',' d1.2).flatMap fun r2 =>
          (tokWs r2.2).flatMap fun r3 =>
            (tokY4 r3.2).map fun y1 =>
              ((y1.1, m1.1, d1.1), y1.2)).bind fun t => mkDate? t.1 t.2.1 t.2.2

/-- `datetime.strptime(s, '%b %d, %Y')`. -/
def fmtbAbbrdY (cs : List Char) : Option String :=
  (firstFull <| (tokMonthAbbr cs).flatMap fun m1 =>
    (tokWs m1.2).flatMap fun r1 =>
      (tokD r1.2).flatMap fun d1 =>
        (tokLit ',' d1.2).flatMap fun r2 =>
          (tokWs r2.2).flatMap fun r3 =>
            (tokY4 r3.2).map fun y1 =>
              ((y1.1, m1.1, d1.1), y1.2)).bind fun t => mkDate? t.1 t.2.1 t.2.2

/-- `ScheduleScraper._parse_date` (lines 365–382): the five formats in order,
a `ValueError` (no match, or invalid date) moving on to the next. -/
def ScheduleScraper.parse_date (date_str : String) : Option String :=
  if date_str = "" then none
  else
    let t := (pyStrip date_str).data
    match fmtIsoDate t with
    | some r => some r
    | none =>
      match fmtMdY t with
      | some r => some r
      | none =>
        match fmtMdy2 t with
        | some r => some r
        | none =>
          match fmtBdY t with
          | some r => some r
          | none =>
            match fmtbAbbrdY t with
            | some r => some r
            | none => none

/-- The `,?\s+(\d{4})` tail of the text-date pattern: optional comma, then at
least one whitespace (maximal: the next token is a digit), then four digits. -/
def textDateTail (rest : List Char) : Option Nat :=
  let r1 := match rest with
    | ',' :: t => t
    | _ => rest
  let n := (r1.takeWhile isPySpace).length
  if n = 0 then none
  else
    match r1.drop n with
    | a :: b :: c :: d :: _ =>
      if a.isDigit ∧ b.isDigit ∧ c.isDigit ∧ d.isDigit then
        some (1000 * dv a + 100 * dv b + 10 * dv c + dv d)
      else none
    | _ => none

/-- The `(\d{1,2}),?\s+(\d{4})` part, with the day greedy (two digits tried
first, backtracking to one). -/
def textDateDayYear (rest : List Char) : Option (Nat × Nat) :=
  match rest with
  | d1 :: d2 :: t =>
    if d1.isDigit then
      if d2.isDigit then
        match textDateTail t with
        | some y => some (10 * dv d1 + dv d2, y)
        | none =>
          match textDateTail (d2 :: t) with
          | some y => some (dv d1, y)
          | none => none
      else
        match textDateTail (d2 :: t) with
        | some y => some (dv d1, y)
        | none => none
    else none
  | [_] => none
  | [] => none

/-- A match of `([A-Z][a-z]+)\s+(\d{1,2}),?\s+(\d{4})` at this position: the
word is one capital plus a maximal nonempty run of lowercase letters (what
follows must be whitespace, so a shorter run cannot match). -/
def textDateMatchAt (cs : List Char) : Option (List Char × Nat × Nat) :=
  match cs with
  | c :: rest =>
    if 'A' ≤ c ∧ c ≤ 'Z' then
      let letters := rest.takeWhile (fun x => 'a' ≤ x ∧ x ≤ 'z')
      if letters.isEmpty then none
      else
        let after := rest.drop letters.length
        let n := (after.takeWhile isPySpace).length
        if n = 0 then none
        else
          match textDateDayYear (after.drop n) with
          | some (d, y) => some (c :: letters, d, y)
          | none => none
    else none
  | [] => none

/-- `re.search` of the text-date pattern: leftmost match. -/
def searchTextDate : List Char → Option (List Char × Nat × Nat)
  | [] => none
  | c :: rest =>
    match textDateMatchAt (c :: rest) with
    | some r => some r
    | none => searchTextDate rest

/-- `datetime.strptime(f"{month} {day} {year}", "%B %d %Y")` on the matched
groups: the word must be a full month name (case-insensitive), the day must
fit `%d` (1–31, so nonzero) and the date must be constructible. -/
def strptimeBdY (word : List Char) (day year : Nat) : Option String :=
  match monthLookup monthFulls word with
  | some m => if 1 ≤ day ∧ day ≤ 31 then mkDate? year m day else none
  | none => none

/-- `ScheduleScraper._parse_date_from_text` (lines 384–405): search
`([A-Z][a-z]+)\s+(\d{1,2}),?\s+(\d{4})`, try `%B %d %Y` on the groups, and on
any failure fall back to `_parse_date` on the (stripped) input. -/
def ScheduleScraper.parse_date_from_text (date_str : String) : Option String :=
  if date_str = "" then none
  else
    let t := pyStrip date_str
    match searchTextDate t.data with
    | some (word, d, y) =>
      match strptimeBdY word d y with
      | some r => some r
      | none => ScheduleScraper.parse_date t
    | none => ScheduleScraper.parse_date t

/-!  Schedule entries and rows. -/

/-- One table cell: Python `None` or text. -/
abbrev Cell := Option String

/-- One table row. -/
abbrev Row := List Cell

/-- A schedule entry: a Python dict whose seven values may each be `None` or
missing (both read back as `None` by `.get`). -/
structure Entry where
  date : Option String
  session_id : Option Nat
  start_time : Option String
  weigh_in_time : Option String
  platform : Option String
  weight_class : Option String
  meet : Option String
deriving DecidableEq

/-- `str(row[i] or '').strip() if i < len(row) else ''`. -/
def cellStrAt (row : Row) (i : Nat) : String :=
  match row.get? i with
  | some c => pyStrip (c.getD "")
  | none => ""

/-- `re.sub(r'\s+[A-E]$', '', s)`: when the last character is A–E and is
preceded by whitespace, the (maximal) trailing whitespace run and the letter
are removed; otherwise the string is unchanged. -/
def reSubGroupLetter (cs : List Char) : List Char :=
  match cs.getLast? with
  | some c =>
    if 'A' ≤ c ∧ c ≤ 'E' then
      let body := cs.dropLast
      let ws := (body.reverse.takeWhile isPySpace).length
      if 0 < ws then body.take (body.length - ws) else cs
    else cs
  | none => cs

/-- `re.sub(r'\s+[A-E]$', '', weight_category).strip()` (final_scraper line
135 and prelim_scraper line 315). -/
def cleanWeightClass (s : String) : String :=
  pyStrip (String.mk (reSubGroupLetter s.data))

/-- Python `str.capitalize()` (first character upper, rest lower). -/
def pyCapitalize (s : String) : String :=
  match s.data with
  | [] => ""
  | c :: rest => String.mk (c.toUpper :: rest.map Char.toLower)

/-!  `FinalScheduleScraper._parse_table` (lines 73–156). -/

/-- The rolling state of the positional parser: the local `current_date`
(kept in lock-step with `self.current_date`), `current_session`, and
`last_start_time`. -/
structure FinalState where
  current_date : Option String
  current_session : Option Nat
  last_start_time : Option String
deriving DecidableEq

/-- One iteration of the row loop of `FinalScheduleScraper._parse_table`:
the updated state and the entries appended (the `_parse_time` calls are not
guarded, so their `ValueError` propagates). -/
def FinalScheduleScraper.rowStep (meet : String) (st : FinalState) (row : Row) :
    Except Unit (FinalState × List Entry) :=
  if row.length < 7 then Except.ok (st, [])
  else
    let date_str := cellStrAt row 0
    let session_str := cellStrAt row 1
    let platform := cellStrAt row 2
    let weigh_time_str := cellStrAt row 3
    let start_time_str := cellStrAt row 4
    let weight_category := cellStrAt row 6
    let cd0 :=
      if date_str ≠ "" ∧ anyMonthAbbr date_str then
        let pd := FinalScheduleScraper.parse_date_from_short date_str
        if optStrTruthy pd then pd else st.current_date
      else st.current_date
    let is_new_session : Bool :=
      decide (session_str = "") && decide (platform = "RED") &&
        decide (start_time_str ≠ "") &&
        (match st.last_start_time with
         | some lst => decide (lst ≠ "") && decide (start_time_str ≠ lst)
         | none => false) &&
        optNatTruthy st.current_session
    let cs1 := if session_str ≠ "" ∧ pyIsDigit session_str then
                 some (strToNat session_str) else st.current_session
    let lst1 := if session_str ≠ "" ∧ pyIsDigit session_str then
                  none else st.last_start_time
    if ¬ (platform = "RED" ∨ platform = "WHITE" ∨ platform = "BLUE") then
      Except.ok (⟨cd0, cs1, lst1⟩, [])
    else if start_time_str = "" ∨ weigh_time_str = "" then
      Except.ok (⟨cd0, cs1, lst1⟩, [])
    else if ¬ (optStrTruthy cd0 = true ∧ optNatTruthy cs1 = true) then
      Except.ok (⟨cd0, cs1, lst1⟩, [])
    else do
      let start_time ← parseTimeCore start_time_str
      let weigh_time ← parseTimeCore weigh_time_str
      match start_time, weigh_time with
      | some stv, some wtv =>
        let lst2 := if platform = "RED" then some start_time_str else lst1
        let entry : Entry :=
          { date := cd0, session_id := cs1,
            start_time := some (timeToStr stv),
            weigh_in_time := some (timeToStr wtv),
            platform := some (pyCapitalize platform),
            weight_class := some (cleanWeightClass weight_category),
            meet := some meet }
        let cs2 := if is_new_session then cs1.map (· + 1) else cs1
        Except.ok (⟨cd0, cs2, lst2⟩, [entry])
      | _, _ => Except.ok (⟨cd0, cs1, lst1⟩, [])

/-- `FinalScheduleScraper._parse_time` — the shared time parser. -/
def FinalScheduleScraper.parse_time : String → Except Unit (Option PyTime) :=
  parseTimeCore

/-- `ScheduleScraper._parse_time` — the identical method of the prelim
scraper. -/
def ScheduleScraper.parse_time : String → Except Unit (Option PyTime) :=
  parseTimeCore

/-- `FinalScheduleScraper._parse_table`: fold the row loop over the table,
starting from `self.current_date` (which persists across tables and across
calls); returns the entries and the final `current_date` written back to the
instance. -/
def FinalScheduleScraper.parse_table (table : List Row) (meet : String)
    (selfDate : Option String) : Except Unit (List Entry × Option String) := do
  let r ← table.foldlM
    (fun (acc : FinalState × List Entry) row => do
      let (st2, es) ← FinalScheduleScraper.rowStep meet acc.1 row
      Except.ok (st2, acc.2 ++ es))
    ((⟨selfDate, none, none⟩ : FinalState), [])
  Except.ok (r.2, r.1.current_date)

/-- `FinalScheduleScraper.extract_schedule_data` (lines 49–71): every table
of every page with at least two rows is parsed in order; `self.current_date`
threads through all of them and is NOT reset at the start of the call. -/
def FinalScheduleScraper.extract_schedule_data (selfDate : Option String)
    (pdf : List (List (List Row))) (meet : String) :
    Except Unit (List Entry × Option String) :=
  pdf.foldlM
    (fun (acc : List Entry × Option String) page =>
      page.foldlM
        (fun (acc2 : List Entry × Option String) table =>
          if table.isEmpty ∨ table.length < 2 then Except.ok acc2
          else do
            let r ← FinalScheduleScraper.parse_table table meet acc2.2
            Except.ok (acc2.1 ++ r.1, r.2))
        acc)
    ([], selfDate)

/-!  `ScheduleScraper` (prelim_scraper.py): header detection and parsing. -/

/-- `' '.join([str(cell or '').lower() for cell in row])` (line 124). -/
def rowTextLower (row : Row) : String :=
  joinSpace (row.map (fun c => lowerStr (c.getD "")))

/-- The header-keyword count of `ScheduleScraper._parse_table` (lines
127–133): how many of the five keyword groups appear in the row text. -/
def keywordsFound (row : Row) : Nat :=
  let t := rowTextLower row
  (if strContains t "sess" then 1 else 0) +
  (if strContains t "date" then 1 else 0) +
  (if strContains t "plat" then 1 else 0) +
  (if strContains t "weigh" then 1 else 0) +
  (if strContains t "weight" ∧ strContains t "category" then 1 else 0)

/-- `not row or all(cell is None or str(cell).strip() == '' for cell in row)`. -/
def rowBlank (row : Row) : Bool :=
  row.isEmpty ||
    row.all (fun c =>
      match c with
      | none => true
      | some s => pyStrip s = "")

/-- `' '.join(str(cell or '').strip() for cell in prev_row)` (line 141). -/
def rowTextStripped (row : Row) : String :=
  joinSpace (row.map (fun c => pyStrip (c.getD "")))

/-- The look-back of `ScheduleScraper._parse_table` (lines 137–145): scan up
to three rows above the header, returning the first joined row text that
contains a full month name. -/
def lookBackDate (table : List Row) (idx : Nat) : Option String :=
  firstSome ([1, 2, 3].filter (fun lb => lb ≤ idx)) (fun lb =>
    match table.get? (idx - lb) with
    | some prev =>
      if prev.isEmpty then none
      else
        let prev_text := rowTextStripped prev
        if anyMonthFull prev_text then some prev_text else none
    | none => none)

/-- One detected header section: the header row, the index of the first data
row after it, and the optional date text found above it. -/
structure HeaderSec where
  header_row : Row
  start_idx : Nat
  date_text : Option String
deriving DecidableEq

/-- The header scan of `ScheduleScraper._parse_table` (lines 120–151): every
non-blank row matching at least 4 of the 5 keyword groups starts a section. -/
def ScheduleScraper.headerSections (table : List Row) : List HeaderSec :=
  (List.range table.length).filterMap (fun idx =>
    match table.get? idx with
    | none => none
    | some row =>
      if rowBlank row then none
      else if 4 ≤ keywordsFound row then
        some ⟨row, idx + 1, lookBackDate table idx⟩
      else none)

/-- The column-index map built by `ScheduleScraper._parse_with_headers`
(lines 172–189). -/
structure HeaderMap where
  weight_class_idx : Option Nat
  weigh_idx : Option Nat
  date_idx : Option Nat
  session_idx : Option Nat
  platform_idx : Option Nat
  time_idx : Option Nat
deriving DecidableEq

/-- Build the header map: for each non-falsy header cell, apply the ordered
`elif` chain (weight+category, exact "weigh", date, sess, plat, time); later
matches for the same role overwrite earlier ones. -/
def buildHeaderMap (headers : Row) : HeaderMap :=
  headers.enum.foldl
    (fun hm p =>
      match p.2 with
      | none => hm
      | some h =>
        if h = "" then hm
        else
          let hl := String.mk (((pyStrip (lowerStr h)).data).map
            (fun c => if c = '\n' then ' ' else c))
          if strContains hl "weight" ∧ strContains hl "category" then
            { hm with weight_class_idx := some p.1 }
          else if hl = "weigh" then { hm with weigh_idx := some p.1 }
          else if strContains hl "date" then { hm with date_idx := some p.1 }
          else if strContains hl "sess" then { hm with session_idx := some p.1 }
          else if strContains hl "plat" then { hm with platform_idx := some p.1 }
          else if strContains hl "time" then { hm with time_idx := some p.1 }
          else hm)
    ⟨none, none, none, none, none, none⟩

/-- `ScheduleScraper._extract_entry_from_row` (lines 265–325): reject on
platform / empty times / missing date or session; parse the two times (their
`ValueError` propagates to the caller, which catches it); build the entry. -/
def ScheduleScraper.extract_entry_from_row (row : Row) (hm : HeaderMap)
    (meet : String) (current_date0 : Option String)
    (current_session0 : Option Nat) : Except Unit (Option Entry) :=
  let date_idx := hm.date_idx.getD 0
  let session_idx := hm.session_idx.getD 1
  let platform_idx := hm.platform_idx.getD 2
  let weigh_idx := hm.weigh_idx.getD 3
  let time_idx := hm.time_idx.getD 4
  let weight_class_idx := hm.weight_class_idx.getD 7
  let date_str := cellStrAt row date_idx
  let session_str := cellStrAt row session_idx
  let platform := cellStrAt row platform_idx
  let weigh_time_str := cellStrAt row weigh_idx
  let start_time_str := cellStrAt row time_idx
  let weight_class := cellStrAt row weight_class_idx
  if ¬ (platform = "Red" ∨ platform = "White" ∨ platform = "Blue") then
    Except.ok none
  else if start_time_str = "" ∨ weigh_time_str = "" then Except.ok none
  else
    let cd :=
      if date_str ≠ "" ∧ anyMonthFull date_str then
        let pd := ScheduleScraper.parse_date_from_text date_str
        if optStrTruthy pd then pd else current_date0
      else current_date0
    let cs := if session_str ≠ "" ∧ pyIsDigit session_str then
                some (strToNat session_str) else current_session0
    if ¬ (optStrTruthy cd = true ∧ optNatTruthy cs = true) then Except.ok none
    else do
      let start_time ← ScheduleScraper.parse_time start_time_str
      let weigh_time ← ScheduleScraper.parse_time weigh_time_str
      match start_time, weigh_time with
      | some stv, some wtv =>
        Except.ok (some
          { date := cd, session_id := cs,
            start_time := some (timeToStr stv),
            weigh_in_time := some (timeToStr wtv),
            platform := some platform,
            weight_class := some (cleanWeightClass weight_class),
            meet := some meet })
      | _, _ => Except.ok none

/-- `ScheduleScraper._extract_entry_from_row_pattern` (lines 327–330): the
documented placeholder, always `None`. -/
def ScheduleScraper.extract_entry_from_row_pattern (row : Row) (meet : String) :
    Option Entry := none

/-- The instance state `self.current_date` / `self.current_session` of the
prelim scraper. -/
structure PrelimState where
  current_date : Option String
  current_session : Option Nat
deriving DecidableEq

/-- `local_date or self.current_date`. -/
def pyOrStr (a b : Option String) : Option String :=
  if optStrTruthy a then a else b

/-- `local_session or self.current_session`. -/
def pyOrNat (a b : Option Nat) : Option Nat :=
  if optNatTruthy a then a else b

/-- `ScheduleScraper._parse_with_headers` (lines 168–244): build the header
map, seed a section-local date from the pre-header text or the first ten
data rows, then run the row loop; each row's extraction is inside
`try/except`, so a raising row is skipped and the loop goes on. -/
def ScheduleScraper.parse_with_headers (data_rows : List Row) (headers : Row)
    (meet : String) (date_text : Option String) (st : PrelimState) :
    List Entry × PrelimState :=
  let hm := buildHeaderMap headers
  let seeded :=
    if optStrTruthy date_text then
      let pd := ScheduleScraper.parse_date_from_text (date_text.getD "")
      if optStrTruthy pd then (pd, { st with current_date := pd })
      else ((none : Option String), st)
    else ((none : Option String), st)
  let scanned :=
    if optStrTruthy seeded.1 then seeded
    else
      let date_idx := hm.date_idx.getD 0
      match firstSome (data_rows.take 10) (fun row =>
        if row.isEmpty ∨ row.length ≤ date_idx then none
        else
          let date_cell := cellStrAt row date_idx
          if date_cell ≠ "" ∧ anyMonthFull date_cell then
            let pd := ScheduleScraper.parse_date_from_text date_cell
            if optStrTruthy pd then pd else none
          else none) with
      | some d => (some d, { seeded.2 with current_date := some d })
      | none => seeded
  let final := data_rows.foldl
    (fun (acc : List Entry × Option String × Option Nat × PrelimState) row =>
      if rowBlank row then acc
      else
        match ScheduleScraper.extract_entry_from_row row hm meet
            (pyOrStr acc.2.1 acc.2.2.2.current_date)
            (pyOrNat acc.2.2.1 acc.2.2.2.current_session) with
        | Except.error _ => acc
        | Except.ok none => acc
        | Except.ok (some e) =>
          let ld2 := if optStrTruthy e.date then e.date else acc.2.1
          let sd2 := if optStrTruthy e.date then e.date
                     else acc.2.2.2.current_date
          let ls2 := if optNatTruthy e.session_id then e.session_id
                     else acc.2.2.1
          let ss2 := if optNatTruthy e.session_id then e.session_id
                     else acc.2.2.2.current_session
          (acc.1 ++ [e], ld2, ls2, ⟨sd2, ss2⟩))
    ([], scanned.1, none, scanned.2)
  (final.1, final.2.2.2)

/-- `ScheduleScraper._parse_without_headers` (lines 246–263): rows of fewer
than four cells are skipped, the rest go through the placeholder pattern
extractor (which yields nothing). -/
def ScheduleScraper.parse_without_headers (table : List Row) (meet : String) :
    List Entry :=
  table.foldl
    (fun acc row =>
      if row.isEmpty ∨ row.length < 4 then acc
      else
        match ScheduleScraper.extract_entry_from_row_pattern row meet with
        | some e => acc ++ [e]
        | none => acc)
    []

/-- The section loop of `ScheduleScraper._parse_table` (lines 154–160): each
section's data rows run to the row before the next header (or table end). -/
def ScheduleScraper.sectionsLoop (table : List Row) (meet : String) :
    List HeaderSec → PrelimState → List Entry × PrelimState
  | [], st => ([], st)
  | sec :: rest, st =>
    let end_idx := match rest with
      | next :: _ => next.start_idx - 1
      | [] => table.length
    let data_rows := (table.drop sec.start_idx).take (end_idx - sec.start_idx)
    let r1 := ScheduleScraper.parse_with_headers data_rows sec.header_row meet
      sec.date_text st
    let r2 := ScheduleScraper.sectionsLoop table meet rest r1.2
    (r1.1 ++ r2.1, r2.2)

/-- `ScheduleScraper._parse_table` (lines 103–166): detect header sections;
if any, parse each, otherwise fall back to the headerless path. -/
def ScheduleScraper.parse_table (table : List Row) (meet : String)
    (st : PrelimState) : List Entry × PrelimState :=
  let secs := ScheduleScraper.headerSections table
  if secs.isEmpty then (ScheduleScraper.parse_without_headers table meet, st)
  else ScheduleScraper.sectionsLoop table meet secs st

/-- `ScheduleScraper.extract_schedule_data` (lines 58–101): resets
`self.current_date` and `self.current_session` to `None` before touching any
page, then parses every table of at least two rows in order. The initial
instance state (whatever earlier parses left) is the first argument and is
discarded by the reset. -/
def ScheduleScraper.extract_schedule_data (initState : PrelimState)
    (pdf : List (List (List Row))) (meet : String) : List Entry × PrelimState :=
  let reset : PrelimState := ⟨none, none⟩
  pdf.foldl
    (fun (acc : List Entry × PrelimState) page =>
      page.foldl
        (fun (acc2 : List Entry × PrelimState) table =>
          if table.isEmpty ∨ table.length < 2 then acc2
          else
            let r := ScheduleScraper.parse_table table meet acc2.2
            (acc2.1 ++ r.1, r.2))
        acc)
    ([], reset)

/-!  Record normalization, reconciliation and deduplication. -/

/-- `all(formatted_entry.values())`: every one of the seven dict values is
truthy (present, non-empty, nonzero). -/
def entryTruthy (e : Entry) : Bool :=
  optStrTruthy e.date && optNatTruthy e.session_id &&
  optStrTruthy e.start_time && optStrTruthy e.weigh_in_time &&
  optStrTruthy e.platform && optStrTruthy e.weight_class &&
  optStrTruthy e.meet

/-- `FinalScheduleScraper.format_for_database` (lines 222–241): rebuild each
entry from its seven fields and keep it only when all are truthy. -/
def FinalScheduleScraper.format_for_database (entries : List Entry) : List Entry :=
  entries.foldl (fun acc e => if entryTruthy e then acc ++ [e] else acc) []

/-- `ScheduleScraper.format_for_database` (lines 407–434) — the identical
method of the prelim scraper. -/
def ScheduleScraper.format_for_database (entries : List Entry) : List Entry :=
  entries.foldl (fun acc e => if entryTruthy e then acc ++ [e] else acc) []

/-- The uniqueness-key tuple type: four possibly-`None` components. -/
abbrev EKey := Option String × Option Nat × Option String × Option String

/-- The final scraper's uniqueness key `(meet, session_id, platform,
weight_class)` (lines 258–263, 329, 341). -/
def FinalScheduleScraper.entryKey (e : Entry) : EKey :=
  (e.meet, e.session_id, e.platform, e.weight_class)

/-- The prelim scraper's uniqueness key `(date, session_id, platform,
weight_class)` (lines 461–466, 562). -/
def ScheduleScraper.entryKey (e : Entry) : EKey :=
  (e.date, e.session_id, e.platform, e.weight_class)

/-- Python dict assignment `m[k] = v` on an insertion-ordered association
list: an existing key keeps its position and takes the new value, a new key
is appended. -/
def pyDictUpd {κ ν : Type} [DecidableEq κ] :
    List (κ × ν) → κ → ν → List (κ × ν)
  | [], k, v => [(k, v)]
  | (k1, v1) :: rest, k, v =>
    if k1 = k then (k1, v) :: rest else (k1, v1) :: pyDictUpd rest k v

/-- Build a Python dict keyed by `f` from a list (`for x in l: m[f(x)] = x`). -/
def pyDict {κ ν : Type} [DecidableEq κ] (f : ν → κ) (l : List ν) : List (κ × ν) :=
  l.foldl (fun m x => pyDictUpd m (f x) x) []

/-- Dict lookup `m.get(k)` / `m[k]`. -/
def kvLookup {κ ν : Type} [DecidableEq κ] (m : List (κ × ν)) (k : κ) : Option ν :=
  firstSome m (fun p => if p.1 = k then some p.2 else none)

/-- `str(x)` of a possibly-`None` value (`str(None)` is `'None'`). -/
def pyStrOpt : Option String → String
  | some s => s
  | none => "None"

/-- The update test of `FinalScheduleScraper.dry_run` (lines 285–287):
`str(existing date) != new date or start times differ or weigh-in times
differ` (comparing a string against `None` is always unequal). -/
def FinalScheduleScraper.trackedDiffer (ex e : Entry) : Bool :=
  (match e.date with
   | some s => decide (pyStrOpt ex.date ≠ s)
   | none => true) ||
  decide (ex.start_time ≠ e.start_time) ||
  decide (ex.weigh_in_time ≠ e.weigh_in_time)

/-- The update test of `ScheduleScraper.dry_run` (lines 490–491): start or
weigh-in times differ. -/
def ScheduleScraper.trackedDiffer (ex e : Entry) : Bool :=
  decide (ex.start_time ≠ e.start_time) ||
  decide (ex.weigh_in_time ≠ e.weigh_in_time)

/-- The partition loop shared by both `dry_run`s (final lines 280–290,
prelim lines 484–497): iterate the new-entry map; a key absent from the
existing map goes to `to_add`, present-and-differing to `to_update` (as the
(existing, new) pair), present-and-equal to `unchanged`. -/
def diffPartition (differ : Entry → Entry → Bool) (exm : List (EKey × Entry)) :
    List (EKey × Entry) → List Entry × List (Entry × Entry) × List Entry
  | [] => ([], [], [])
  | (k, e) :: rest =>
    let r := diffPartition differ exm rest
    match kvLookup exm k with
    | none => (e :: r.1, r.2.1, r.2.2)
    | some ex =>
      if differ ex e then (r.1, (ex, e) :: r.2.1, r.2.2)
      else (r.1, r.2.1, e :: r.2.2)

/-- `FinalScheduleScraper.dry_run` (lines 243–318), as the pure partition it
computes from the fetched existing records and the new entries. -/
def FinalScheduleScraper.dry_run (existing new_entries : List Entry) :
    List Entry × List (Entry × Entry) × List Entry :=
  diffPartition FinalScheduleScraper.trackedDiffer
    (pyDict FinalScheduleScraper.entryKey existing)
    (pyDict FinalScheduleScraper.entryKey new_entries)

/-- `ScheduleScraper.dry_run` (lines 436–541), as the pure partition it
computes. -/
def ScheduleScraper.dry_run (existing new_entries : List Entry) :
    List Entry × List (Entry × Entry) × List Entry :=
  diffPartition ScheduleScraper.trackedDiffer
    (pyDict ScheduleScraper.entryKey existing)
    (pyDict ScheduleScraper.entryKey new_entries)

/-- `FinalScheduleScraper.upsert_to_database` (lines 320–345), up to the
store call: the deduplicated batch actually sent (`seen[key] = entry` in
input order, then `list(seen.values())`), and the reported number of removed
duplicates (printed only when some were removed). -/
def FinalScheduleScraper.upsertBatch (entries : List Entry) :
    List Entry × Option Nat :=
  let deduplicated := (pyDict FinalScheduleScraper.entryKey entries).map
    (fun p => p.2)
  (deduplicated,
    if deduplicated.length < entries.length then
      some (entries.length - deduplicated.length)
    else none)

/-- `ScheduleScraper.upsert_to_database` (lines 543–566), up to the store
call: the batch sent is the input, unmodified — this scraper performs no
deduplication. -/
def ScheduleScraper.upsertBatch (entries : List Entry) : List Entry :=
  entries

/-!  Remaining supporting lemmas and decidability. -/

instance {ε α : Type} [DecidableEq ε] [DecidableEq α] : DecidableEq (Except ε α) :=
  fun x y =>
    match x, y with
    | Except.ok a, Except.ok b =>
      if h : a = b then isTrue (by rw [h])
      else isFalse (fun he => h (Except.ok.inj he))
    | Except.error a, Except.error b =>
      if h : a = b then isTrue (by rw [h])
      else isFalse (fun he => h (Except.error.inj he))
    | Except.ok _, Except.error _ => isFalse (fun he => Except.noConfusion he)
    | Except.error _, Except.ok _ => isFalse (fun he => Except.noConfusion he)

/-!  Concrete inputs used to settle individual claims. -/

/-- A positional table: an explicit date+session row, then Red rows with
start times 9:00, 9:00, 10:00 and a blank session field, then one more Red
row after the inferred boundary. -/
def boundaryTable : List Row :=
  [[some "Sat\nJun 21", some "5", some "", some "", some "", some "", some ""],
   [some "", some "", some "RED", some "8:00", some "9:00", some "", some "81 A"],
   [some "", some "", some "RED", some "8:00", some "9:00", some "", some "73 B"],
   [some "", some "", some "RED", some "9:00", some "10:00", some "", some "81"],
   [some "", some "", some "RED", some "9:00", some "10:00", some "", some "73"]]

/-- A final-scraper table whose third data row has the out-of-range start
time text `9:75`, between two well-formed rows. -/
def malformedFinalTable : List Row :=
  [[some "Jun 21", some "5", some "", some "", some "", some "", some ""],
   [some "", some "", some "RED", some "8:00", some "9:00", some "", some "81 A"],
   [some "", some "", some "RED", some "8:00", some "9:75", some "", some "73"],
   [some "", some "", some "BLUE", some "8:00", some "9:00", some "", some "88"]]

/-- The same table with the malformed row removed. -/
def wellFormedFinalTable : List Row :=
  [[some "Jun 21", some "5", some "", some "", some "", some "", some ""],
   [some "", some "", some "RED", some "8:00", some "9:00", some "", some "81 A"],
   [some "", some "", some "BLUE", some "8:00", some "9:00", some "", some "88"]]

/-- A prelim-scraper table with a header row, one well-formed row, the same
malformed `9:75` row, and another well-formed row. -/
def malformedPrelimTable : List Row :=
  [[some "Saturday June 21, 2025"],
   [some "Date", some "Session", some "Platform", some "Weigh",
    some "Start Time", none, none, some "Weight Category"],
   [some "", some "1", some "Red", some "8:00", some "9:00", none, none,
    some "81 A"],
   [some "", some "", some "Red", some "8:00", some "9:75", none, none,
    some "73"],
   [some "", some "", some "Blue", some "8:00", some "9:00", none, none,
    some "88 B"]]

/-- A one-page document whose single table carries a date. -/
def datedDoc : List (List (List Row)) :=
  [[[[some "Jun 21", some "3", some "RED", some "8:00", some "9:00", some "",
      some "81"],
     [some "", some "", some "RED", some "8:00", some "9:00", some "",
      some "73"]]]]

/-- A one-page document whose single table carries no date text at all. -/
def undatedDoc : List (List (List Row)) :=
  [[[[some "", some "4", some "RED", some "8:00", some "9:00", some "",
      some "81"],
     [some "", some "", some "BLUE", some "8:00", some "9:00", some "",
      some "76"]]]]

/-- Two prelim-keyed records sharing the uniqueness key and differing only
in start time. -/
def dupFirst : Entry :=
  { date := some "2025-06-21", session_id := some 1,
    start_time := some "09:00:00", weigh_in_time := some "08:00:00",
    platform := some "Red", weight_class := some "81", meet := some "Nationals" }

/-- The later record with the same key as `dupFirst`. -/
def dupSecond : Entry :=
  { date := some "2025-06-21", session_id := some 1,
    start_time := some "10:00:00", weigh_in_time := some "08:00:00",
    platform := some "Red", weight_class := some "81", meet := some "Nationals" }

/-- The last record with a given key, in input order. -/
def lastWithKey {κ ν : Type} [DecidableEq κ] (f : ν → κ) (l : List ν)
    (k : κ) : Option ν :=
  (l.filter (fun v => decide (f v = k))).getLast?

/-!  Lemmas about the Python-dict model. -/

theorem kvLookup_nil {κ ν : Type} [DecidableEq κ] (k : κ) :
    kvLookup ([] : List (κ × ν)) k = none := rfl

theorem kvLookup_cons {κ ν : Type} [DecidableEq κ] (p : κ × ν)
    (m : List (κ × ν)) (k : κ) :
    kvLookup (p :: m) k = if p.1 = k then some p.2 else kvLookup m k := by
  by_cases h : p.1 = k <;> simp [kvLookup, firstSome, h]

theorem kvLookup_pyDictUpd {κ ν : Type} [DecidableEq κ] (m : List (κ × ν))
    (k : κ) (v : ν) (k' : κ) :
    kvLookup (pyDictUpd m k v) k' = if k = k' then some v else kvLookup m k' := by
  induction m with
  | nil =>
    by_cases h : k = k' <;> simp [pyDictUpd, kvLookup_cons, kvLookup_nil, h]
  | cons p rest ih =>
    obtain ⟨k1, v1⟩ := p
    by_cases h1 : k1 = k
    · subst h1
      by_cases h2 : k1 = k' <;> simp [pyDictUpd, kvLookup_cons, h2]
    · by_cases h2 : k1 = k'
      · have hkk : ¬ (k = k') := fun he => h1 (h2.trans he.symm)
        have hk'k : ¬ (k' = k) := fun he => hkk he.symm
        simp [pyDictUpd, kvLookup_cons, h1, h2, hkk, hk'k]
      · simp [pyDictUpd, kvLookup_cons, h1, h2, ih]

theorem pyDict_append_one {κ ν : Type} [DecidableEq κ] (f : ν → κ)
    (l : List ν) (x : ν) :
    pyDict f (l ++ [x]) = pyDictUpd (pyDict f l) (f x) x := by
  simp [pyDict, List.foldl_append]

/-- Lookup in the Python dict built from a list is the last list element
with that key. -/
theorem kvLookup_pyDict {κ ν : Type} [DecidableEq κ] (f : ν → κ)
    (l : List ν) (k : κ) :
    kvLookup (pyDict f l) k = (l.filter (fun v => decide (f v = k))).getLast? := by
  induction l using List.reverseRecOn with
  | nil => rfl
  | append_singleton t x ih =>
    rw [pyDict_append_one, kvLookup_pyDictUpd, List.filter_append]
    by_cases h : f x = k
    · simp [h, List.getLast?_concat]
    · simp [h, ih]

theorem mem_pyDictUpd {κ ν : Type} [DecidableEq κ] (m : List (κ × ν))
    (k : κ) (v : ν) (p : κ × ν) :
    p ∈ pyDictUpd m k v → p = (k, v) ∨ p ∈ m := by
  induction m with
  | nil =>
    intro hp
    simp [pyDictUpd] at hp
    exact Or.inl hp
  | cons q rest ih =>
    obtain ⟨k1, v1⟩ := q
    intro hp
    by_cases h1 : k1 = k
    · subst h1
      rw [show pyDictUpd ((k1, v1) :: rest) k1 v = (k1, v) :: rest from by
        simp [pyDictUpd]] at hp
      rcases List.mem_cons.mp hp with h | h
      · exact Or.inl h
      · exact Or.inr (List.mem_cons_of_mem _ h)
    · rw [show pyDictUpd ((k1, v1) :: rest) k v = (k1, v1) :: pyDictUpd rest k v from by
        simp [pyDictUpd, h1]] at hp
      rcases List.mem_cons.mp hp with h | h
      · exact Or.inr (h ▸ List.mem_cons_self _ _)
      · rcases ih h with h2 | h2
        · exact Or.inl h2
        · exact Or.inr (List.mem_cons_of_mem _ h2)

/-- Every pair of a dict built with key function `f` has `f` of its value as
its key. -/
theorem pyDict_keyFact {κ ν : Type} [DecidableEq κ] (f : ν → κ) (l : List ν) :
    ∀ p ∈ pyDict f l, f p.2 = p.1 := by
  induction l using List.reverseRecOn with
  | nil => simp [pyDict]
  | append_singleton t x ih =>
    rw [pyDict_append_one]
    intro p hp
    rcases mem_pyDictUpd _ _ _ _ hp with h | h
    · subst h; rfl
    · exact ih p h

theorem keys_pyDictUpd {κ ν : Type} [DecidableEq κ] (m : List (κ × ν))
    (k : κ) (v : ν) :
    (pyDictUpd m k v).map Prod.fst =
      if k ∈ m.map Prod.fst then m.map Prod.fst else m.map Prod.fst ++ [k] := by
  induction m with
  | nil => simp [pyDictUpd]
  | cons q rest ih =>
    obtain ⟨k1, v1⟩ := q
    by_cases h1 : k1 = k
    · subst h1; simp [pyDictUpd]
    · have h1' : ¬ (k = k1) := fun he => h1 he.symm
      by_cases h2 : k ∈ rest.map Prod.fst <;>
        simp [pyDictUpd, h1, h1', h2, ih]

/-- The keys of a Python dict are distinct. -/
theorem pyDict_keys_nodup {κ ν : Type} [DecidableEq κ] (f : ν → κ)
    (l : List ν) : ((pyDict f l).map Prod.fst).Nodup := by
  induction l using List.reverseRecOn with
  | nil => simp [pyDict]
  | append_singleton t x ih =>
    rw [pyDict_append_one, keys_pyDictUpd]
    by_cases h : f x ∈ (pyDict f t).map Prod.fst
    · simpa [h] using ih
    · rw [if_neg h]
      simp [List.nodup_append, ih, h]

theorem kvLookup_eq_none_of_not_mem_keys {κ ν : Type} [DecidableEq κ]
    (m : List (κ × ν)) (k : κ) (h : k ∉ m.map Prod.fst) :
    kvLookup m k = none := by
  induction m with
  | nil => rfl
  | cons q rest ih =>
    rw [kvLookup_cons]
    have h1 : ¬ (q.1 = k) := fun he => h (by simp [← he])
    have h2 : k ∉ rest.map Prod.fst := fun hm => h (by simp [hm])
    simp [h1, ih h2]

/-- In a dict with distinct keys, membership is lookup. -/
theorem mem_iff_kvLookup {κ ν : Type} [DecidableEq κ] :
    ∀ (m : List (κ × ν)), (m.map Prod.fst).Nodup → ∀ (k : κ) (v : ν),
      ((k, v) ∈ m ↔ kvLookup m k = some v) := by
  intro m
  induction m with
  | nil => intro _ k v; simp [kvLookup_nil]
  | cons q rest ih =>
    intro hnd k v
    obtain ⟨k1, v1⟩ := q
    have hnd1 : (rest.map Prod.fst).Nodup := (List.nodup_cons.mp hnd).2
    have hk1 : k1 ∉ rest.map Prod.fst := (List.nodup_cons.mp hnd).1
    rw [kvLookup_cons, List.mem_cons]
    by_cases h1 : k1 = k
    · subst h1
      simp only [if_pos rfl]
      constructor
      · rintro (h | h)
        · rw [Prod.mk.injEq] at h
          exact congrArg some h.2.symm
        · exact absurd (by simpa using List.mem_map_of_mem Prod.fst h) hk1
      · intro h
        left
        rw [Prod.mk.injEq]
        exact ⟨rfl, (Option.some.inj h).symm⟩
    · simp only [if_neg h1]
      rw [← ih hnd1 k v]
      constructor
      · rintro (h | h)
        · exact absurd (congrArg Prod.fst h).symm h1
        · exact h
      · intro h
        exact Or.inr h

/-- The values of a well-formed dict, filtered to one key, are exactly the
looked-up value. -/
theorem values_filter_of_wf {κ ν : Type} [DecidableEq κ] (f : ν → κ) (k : κ) :
    ∀ (m : List (κ × ν)), (∀ p ∈ m, f p.2 = p.1) → (m.map Prod.fst).Nodup →
      (m.map Prod.snd).filter (fun v => decide (f v = k)) = (kvLookup m k).toList := by
  intro m
  induction m with
  | nil => intro _ _; simp [kvLookup_nil]
  | cons q rest ih =>
    intro hkey hnd
    obtain ⟨k1, v1⟩ := q
    have hv1 : f v1 = k1 := hkey (k1, v1) (List.mem_cons_self _ _)
    have hkey1 : ∀ p ∈ rest, f p.2 = p.1 := fun p hp =>
      hkey p (List.mem_cons_of_mem _ hp)
    have hnd1 : (rest.map Prod.fst).Nodup := (List.nodup_cons.mp hnd).2
    have hk1 : k1 ∉ rest.map Prod.fst := (List.nodup_cons.mp hnd).1
    rw [List.map_cons, List.filter_cons, kvLookup_cons]
    by_cases h : k1 = k
    · subst h
      have hnone : kvLookup rest k1 = none :=
        kvLookup_eq_none_of_not_mem_keys rest k1 hk1
      simp [hv1, ih hkey1 hnd1, hnone]
    · have hne : ¬ (f v1 = k) := by rw [hv1]; exact h
      simp [hne, h, ih hkey1 hnd1]

/-- `kvLookup` into `pyDict f l` returning `some` forces the key shape. -/
theorem kvLookup_pyDict_some {κ ν : Type} [DecidableEq κ] (f : ν → κ)
    (l : List ν) (k : κ) (v : ν) (h : kvLookup (pyDict f l) k = some v) :
    f v = k := by
  have hm : (k, v) ∈ pyDict f l :=
    (mem_iff_kvLookup (pyDict f l) (pyDict_keys_nodup f l) k v).mpr h
  exact pyDict_keyFact f l (k, v) hm

theorem kvLookup_pyDict_eq_lastWithKey {κ ν : Type} [DecidableEq κ]
    (f : ν → κ) (l : List ν) (k : κ) :
    kvLookup (pyDict f l) k = lastWithKey f l k :=
  kvLookup_pyDict f l k

theorem getLast?_some_mem {α : Type} (l : List α) (v : α)
    (h : l.getLast? = some v) : v ∈ l := by
  rcases List.mem_getLast?_eq_getLast (Option.mem_def.mpr h) with ⟨hne, heq⟩
  rw [heq]
  exact List.getLast_mem hne

theorem lastWithKey_some_mem {κ ν : Type} [DecidableEq κ] (f : ν → κ)
    (l : List ν) (k : κ) (v : ν) (h : lastWithKey f l k = some v) :
    v ∈ l ∧ f v = k := by
  have hm : v ∈ l.filter (fun v => decide (f v = k)) :=
    getLast?_some_mem _ v h
  refine ⟨List.mem_of_mem_filter hm, ?_⟩
  simpa using List.of_mem_filter hm

theorem lastWithKey_exists_of_mem {κ ν : Type} [DecidableEq κ] (f : ν → κ)
    (l : List ν) (x : ν) (hx : x ∈ l) :
    ∃ v, lastWithKey f l (f x) = some v := by
  have hne : l.filter (fun v => decide (f v = f x)) ≠ [] := by
    intro h0
    have := List.filter_eq_nil_iff.mp h0 x hx
    simp at this
  exact ⟨_, List.getLast?_eq_getLast_of_ne_nil hne⟩

theorem diffPartition_fst (differ : Entry → Entry → Bool)
    (exm : List (EKey × Entry)) (newm : List (EKey × Entry)) :
    (diffPartition differ exm newm).1 =
      newm.filterMap (fun p =>
        match kvLookup exm p.1 with
        | none => some p.2
        | some _ => none) := by
  induction newm with
  | nil => rfl
  | cons p rest ih =>
    obtain ⟨k, e⟩ := p
    cases hk : kvLookup exm k with
    | none => simp [diffPartition, hk, ih]
    | some ex =>
      by_cases hd : differ ex e <;> simp [diffPartition, hk, hd, ih]

theorem diffPartition_upd (differ : Entry → Entry → Bool)
    (exm : List (EKey × Entry)) (newm : List (EKey × Entry)) :
    (diffPartition differ exm newm).2.1 =
      newm.filterMap (fun p =>
        match kvLookup exm p.1 with
        | none => none
        | some ex => if differ ex p.2 then some (ex, p.2) else none) := by
  induction newm with
  | nil => rfl
  | cons p rest ih =>
    obtain ⟨k, e⟩ := p
    cases hk : kvLookup exm k with
    | none => simp [diffPartition, hk, ih]
    | some ex =>
      by_cases hd : differ ex e <;> simp [diffPartition, hk, hd, ih]

theorem diffPartition_unch (differ : Entry → Entry → Bool)
    (exm : List (EKey × Entry)) (newm : List (EKey × Entry)) :
    (diffPartition differ exm newm).2.2 =
      newm.filterMap (fun p =>
        match kvLookup exm p.1 with
        | none => none
        | some ex => if differ ex p.2 then none else some p.2) := by
  induction newm with
  | nil => rfl
  | cons p rest ih =>
    obtain ⟨k, e⟩ := p
    cases hk : kvLookup exm k with
    | none => simp [diffPartition, hk, ih]
    | some ex =>
      by_cases hd : differ ex e <;> simp [diffPartition, hk, hd, ih]

/-- Characterization of the three dry-run partitions over the raw record
lists: membership in `to_add` / `to_update` / `unchanged` in terms of the
last record per key on each side. -/
theorem diffPartition_pyDict_spec (f : Entry → EKey)
    (differ : Entry → Entry → Bool) (old new_entries : List Entry) :
    (∀ e, e ∈ (diffPartition differ (pyDict f old) (pyDict f new_entries)).1 ↔
        (lastWithKey f new_entries (f e) = some e ∧
         lastWithKey f old (f e) = none)) ∧
    (∀ ex e,
        (ex, e) ∈ (diffPartition differ (pyDict f old) (pyDict f new_entries)).2.1 ↔
        (lastWithKey f new_entries (f e) = some e ∧
         lastWithKey f old (f e) = some ex ∧ differ ex e = true)) ∧
    (∀ e, e ∈ (diffPartition differ (pyDict f old) (pyDict f new_entries)).2.2 ↔
        (lastWithKey f new_entries (f e) = some e ∧
         ∃ ex, lastWithKey f old (f e) = some ex ∧ differ ex e = false)) := by
  have hndNew := pyDict_keys_nodup f new_entries
  refine ⟨?_, ?_, ?_⟩
  · intro e
    rw [diffPartition_fst, List.mem_filterMap]
    constructor
    · rintro ⟨⟨k, e1⟩, hmem, hg⟩
      cases hk : kvLookup (pyDict f old) k with
      | none =>
        rw [hk] at hg
        simp only [Option.some.injEq] at hg
        rw [← hg]
        have hkey : f e1 = k := pyDict_keyFact f new_entries (k, e1) hmem
        have hnew : kvLookup (pyDict f new_entries) k = some e1 :=
          (mem_iff_kvLookup _ hndNew k e1).mp hmem
        rw [← hkey] at hnew hk
        rw [kvLookup_pyDict_eq_lastWithKey] at hnew hk
        exact ⟨hnew, hk⟩
      | some ex =>
        rw [hk] at hg
        simp at hg
    · rintro ⟨hnew, hold⟩
      refine ⟨(f e, e), ?_, ?_⟩
      · exact (mem_iff_kvLookup _ hndNew (f e) e).mpr
          (by rw [kvLookup_pyDict_eq_lastWithKey]; exact hnew)
      · rw [show kvLookup (pyDict f old) (f e) = none from by
          rw [kvLookup_pyDict_eq_lastWithKey]; exact hold]
  · intro ex e
    rw [diffPartition_upd, List.mem_filterMap]
    constructor
    · rintro ⟨⟨k, e1⟩, hmem, hg⟩
      cases hk : kvLookup (pyDict f old) k with
      | none =>
        rw [hk] at hg
        simp at hg
      | some ex1 =>
        rw [hk] at hg
        by_cases hd : differ ex1 e1
        · simp only [hd] at hg
          simp only [if_true, Option.some.injEq, Prod.mk.injEq] at hg
          obtain ⟨hg1, hg2⟩ := hg
          rw [← hg2, ← hg1]
          have hkey : f e1 = k := pyDict_keyFact f new_entries (k, e1) hmem
          have hnew : kvLookup (pyDict f new_entries) k = some e1 :=
            (mem_iff_kvLookup _ hndNew k e1).mp hmem
          rw [← hkey] at hnew hk
          rw [kvLookup_pyDict_eq_lastWithKey] at hnew hk
          exact ⟨hnew, hk, hd⟩
        · simp [hd] at hg
    · rintro ⟨hnew, hold, hd⟩
      refine ⟨(f e, e), ?_, ?_⟩
      · exact (mem_iff_kvLookup _ hndNew (f e) e).mpr
          (by rw [kvLookup_pyDict_eq_lastWithKey]; exact hnew)
      · rw [show kvLookup (pyDict f old) (f e) = some ex from by
          rw [kvLookup_pyDict_eq_lastWithKey]; exact hold]
        simp [hd]
  · intro e
    rw [diffPartition_unch, List.mem_filterMap]
    constructor
    · rintro ⟨⟨k, e1⟩, hmem, hg⟩
      cases hk : kvLookup (pyDict f old) k with
      | none =>
        rw [hk] at hg
        simp at hg
      | some ex1 =>
        rw [hk] at hg
        by_cases hd : differ ex1 e1
        · simp [hd] at hg
        · simp [hd] at hg
          rw [← hg]
          have hkey : f e1 = k := pyDict_keyFact f new_entries (k, e1) hmem
          have hnew : kvLookup (pyDict f new_entries) k = some e1 :=
            (mem_iff_kvLookup _ hndNew k e1).mp hmem
          rw [← hkey] at hnew hk
          rw [kvLookup_pyDict_eq_lastWithKey] at hnew hk
          refine ⟨hnew, ex1, hk, by simpa using hd⟩
    · rintro ⟨hnew, ex, hold, hd⟩
      refine ⟨(f e, e), ?_, ?_⟩
      · exact (mem_iff_kvLookup _ hndNew (f e) e).mpr
          (by rw [kvLookup_pyDict_eq_lastWithKey]; exact hnew)
      · rw [show kvLookup (pyDict f old) (f e) = some ex from by
          rw [kvLookup_pyDict_eq_lastWithKey]; exact hold]
        simp [hd]

/-- The three partitions cover exactly the keys of the new record list, and
are pairwise disjoint on keys. -/
theorem diffPartition_pyDict_cover (f : Entry → EKey)
    (differ : Entry → Entry → Bool) (old new_entries : List Entry) :
    (∀ k,
      ((∃ e ∈ (diffPartition differ (pyDict f old) (pyDict f new_entries)).1,
          f e = k) ∨
       (∃ q ∈ (diffPartition differ (pyDict f old) (pyDict f new_entries)).2.1,
          f q.2 = k) ∨
       (∃ e ∈ (diffPartition differ (pyDict f old) (pyDict f new_entries)).2.2,
          f e = k)) ↔
      ∃ x ∈ new_entries, f x = k) ∧
    (∀ k,
      ¬ ((∃ e ∈ (diffPartition differ (pyDict f old) (pyDict f new_entries)).1,
            f e = k) ∧
         (∃ q ∈ (diffPartition differ (pyDict f old) (pyDict f new_entries)).2.1,
            f q.2 = k)) ∧
      ¬ ((∃ e ∈ (diffPartition differ (pyDict f old) (pyDict f new_entries)).1,
            f e = k) ∧
         (∃ e2 ∈ (diffPartition differ (pyDict f old) (pyDict f new_entries)).2.2,
            f e2 = k)) ∧
      ¬ ((∃ q ∈ (diffPartition differ (pyDict f old) (pyDict f new_entries)).2.1,
            f q.2 = k) ∧
         (∃ e2 ∈ (diffPartition differ (pyDict f old) (pyDict f new_entries)).2.2,
            f e2 = k))) := by
  obtain ⟨h1, h2, h3⟩ := diffPartition_pyDict_spec f differ old new_entries
  constructor
  · intro k
    constructor
    · rintro (⟨e, he, hk⟩ | ⟨⟨ex, e⟩, hq, hk⟩ | ⟨e, he, hk⟩)
      · obtain ⟨hnew, _⟩ := (h1 e).mp he
        exact ⟨e, (lastWithKey_some_mem f new_entries (f e) e hnew).1, hk⟩
      · obtain ⟨hnew, _, _⟩ := (h2 ex e).mp hq
        exact ⟨e, (lastWithKey_some_mem f new_entries (f e) e hnew).1, hk⟩
      · obtain ⟨hnew, _⟩ := (h3 e).mp he
        exact ⟨e, (lastWithKey_some_mem f new_entries (f e) e hnew).1, hk⟩
    · rintro ⟨x, hx, hk⟩
      obtain ⟨v, hv⟩ := lastWithKey_exists_of_mem f new_entries x hx
      rw [hk] at hv
      have hvk : f v = k := (lastWithKey_some_mem f new_entries k v hv).2
      cases hold : lastWithKey f old k with
      | none =>
        refine Or.inl ⟨v, (h1 v).mpr ⟨?_, ?_⟩, hvk⟩
        · rw [hvk]; exact hv
        · rw [hvk]; exact hold
      | some ex =>
        by_cases hd : differ ex v
        · refine Or.inr (Or.inl ⟨(ex, v), (h2 ex v).mpr ⟨?_, ?_, hd⟩, hvk⟩)
          · rw [hvk]; exact hv
          · rw [hvk]; exact hold
        · refine Or.inr (Or.inr ⟨v, (h3 v).mpr ⟨?_, ex, ?_, by simpa using hd⟩, hvk⟩)
          · rw [hvk]; exact hv
          · rw [hvk]; exact hold
  · intro k
    refine ⟨?_, ?_, ?_⟩
    · rintro ⟨⟨e, he, hk⟩, ⟨⟨ex, e2⟩, hq, hk2⟩⟩
      obtain ⟨_, holdn⟩ := (h1 e).mp he
      obtain ⟨_, holds, _⟩ := (h2 ex e2).mp hq
      rw [hk] at holdn
      rw [hk2] at holds
      rw [holdn] at holds
      exact Option.noConfusion holds
    · rintro ⟨⟨e, he, hk⟩, ⟨e2, he2, hk2⟩⟩
      obtain ⟨_, holdn⟩ := (h1 e).mp he
      obtain ⟨_, ex, holds, _⟩ := (h3 e2).mp he2
      rw [hk] at holdn
      rw [hk2] at holds
      rw [holdn] at holds
      exact Option.noConfusion holds
    · rintro ⟨⟨⟨ex, e2⟩, hq, hk2⟩, ⟨e3, he3, hk3⟩⟩
      obtain ⟨hnew1, holds1, hd1⟩ := (h2 ex e2).mp hq
      obtain ⟨hnew2, ex2, holds2, hd2⟩ := (h3 e3).mp he3
      rw [hk2] at hnew1 holds1
      rw [hk3] at hnew2 holds2
      rw [hnew1] at hnew2
      have he23 : e2 = e3 := Option.some.inj hnew2
      rw [holds1] at holds2
      have hex : ex = ex2 := Option.some.inj holds2
      rw [← he23, ← hex] at hd2
      rw [hd1] at hd2
      exact Bool.noConfusion hd2

theorem foldl_append_if_filter (p : Entry → Bool) :
    ∀ (l : List Entry) (acc : List Entry),
      l.foldl (fun acc e => if p e then acc ++ [e] else acc) acc =
        acc ++ l.filter p := by
  intro l
  induction l with
  | nil => intro acc; simp
  | cons x t ih =>
    intro acc
    rw [List.foldl_cons, List.filter_cons]
    by_cases h : p x
    · rw [if_pos h, ih, if_pos h]
      simp
    · rw [if_neg h, ih]
      simp [h]

/-!  Claim theorems. -/

/-- C3: every record kept by format_for_database (both scrapers) has all
seven fields present and truthy, and the output is exactly the input with
incomplete records dropped. -/
theorem format_for_database_all_fields_present (entries : List Entry) :
    (FinalScheduleScraper.format_for_database entries).all entryTruthy = true ∧
    FinalScheduleScraper.format_for_database entries =
      entries.filter entryTruthy ∧
    (ScheduleScraper.format_for_database entries).all entryTruthy = true ∧
    ScheduleScraper.format_for_database entries = entries.filter entryTruthy := by
  have h1 : FinalScheduleScraper.format_for_database entries =
      entries.filter entryTruthy := by
    unfold FinalScheduleScraper.format_for_database
    rw [foldl_append_if_filter]
    simp
  have h2 : ScheduleScraper.format_for_database entries =
      entries.filter entryTruthy := by
    unfold ScheduleScraper.format_for_database
    rw [foldl_append_if_filter]
    simp
  refine ⟨?_, h1, ?_, h2⟩
  · rw [h1]
    exact List.all_eq_true.mpr (fun e he => List.of_mem_filter he)
  · rw [h2]
    exact List.all_eq_true.mpr (fun e he => List.of_mem_filter he)

/-- C5: the time normalizer is not total — on `9:75` (and on an
out-of-range extracted hour) the permissive-regex branch reaches
`datetime_time(hour, minute)` outside any `try` and raises `ValueError`
instead of returning the no-value signal. -/
theorem parse_time_raises_on_out_of_range :
    FinalScheduleScraper.parse_time "9:75" = Except.error () ∧
    ScheduleScraper.parse_time "9:75" = Except.error () ∧
    FinalScheduleScraper.parse_time "25:30" = Except.error () ∧
    FinalScheduleScraper.parse_time "not a time" = Except.ok none := by decide

/-- C6: the four strptime formats are tried in order (HH:MM:SS first, then
HH:MM, then the meridiem forms), `12:00 AM` maps to hour 0, `12:00 PM`
stays 12, `1:15 PM` maps to 13, the permissive fallback accepts
case-insensitive am/pm with surrounding text, and total failure yields the
no-value signal rather than any default time. -/
theorem parse_time_formats_and_meridiem :
    FinalScheduleScraper.parse_time "7:05:09" =
      Except.ok (some (PyTime.mk 7 5 9)) ∧
    FinalScheduleScraper.parse_time "7:05" =
      Except.ok (some (PyTime.mk 7 5 0)) ∧
    FinalScheduleScraper.parse_time "12:00 AM" =
      Except.ok (some (PyTime.mk 0 0 0)) ∧
    FinalScheduleScraper.parse_time "12:00 PM" =
      Except.ok (some (PyTime.mk 12 0 0)) ∧
    FinalScheduleScraper.parse_time "1:15 PM" =
      Except.ok (some (PyTime.mk 13 15 0)) ∧
    FinalScheduleScraper.parse_time "1:15PM" =
      Except.ok (some (PyTime.mk 13 15 0)) ∧
    FinalScheduleScraper.parse_time "12:30am" =
      Except.ok (some (PyTime.mk 0 30 0)) ∧
    FinalScheduleScraper.parse_time "started 9:30 pm" =
      Except.ok (some (PyTime.mk 21 30 0)) ∧
    FinalScheduleScraper.parse_time "no time" = Except.ok none := by decide

/-- C2 (counterexample): on Red rows timed 9:00, 9:00, 10:00 under session
5, the code emits sessions 5, 5, 5 (and 6 only for the following row): the
third record carries session 5, not 6 as the claim states. -/
theorem session_boundary_third_row_counterexample :
    (FinalScheduleScraper.parse_table boundaryTable "Meet" none).map
        (fun r => r.1.map Entry.session_id) =
      Except.ok [some 5, some 5, some 5, some 6] ∧
    (FinalScheduleScraper.parse_table boundaryTable "Meet" none).map
        (fun r => (r.1.map Entry.session_id).get? 2) =
      Except.ok (some (some 5)) ∧
    ¬ ((FinalScheduleScraper.parse_table boundaryTable "Meet" none).map
        (fun r => (r.1.map Entry.session_id).get? 2) =
      Except.ok (some (some 6))) := by decide

/-- C2 (amended): the boundary row itself is still attributed to the
running session; the counter increments only after it is emitted, so the
sessions of the four Red rows are 5, 5, 5, 6. -/
theorem session_boundary_increment_after_boundary :
    (FinalScheduleScraper.parse_table boundaryTable "Meet" none).map
        (fun r => r.1.map Entry.session_id) =
      Except.ok [some 5, some 5, some 5, some 6] := by decide

/-- C9: in the prelim scraper a row whose time text raises is skipped and
its siblings still parse, but in the final scraper the same malformed row
aborts the whole table parse (the claim's skip policy is violated there). -/
theorem malformed_row_aborts_final_table :
    FinalScheduleScraper.parse_table malformedFinalTable "Meet" none =
      Except.error () ∧
    (FinalScheduleScraper.parse_table wellFormedFinalTable "Meet" none).map
        (fun r => r.1.map (fun e => (e.platform, e.weight_class))) =
      Except.ok [(some "Red", some "81"), (some "Blue", some "88")] ∧
    (ScheduleScraper.parse_table malformedPrelimTable "Nationals"
        (PrelimState.mk none none)).1.map
        (fun e => (e.platform, e.weight_class)) =
      [(some "Red", some "81"), (some "Blue", some "88")] := by decide

/-- C10 (counterexample): parsing a dated document leaves
`self.current_date` set on the final scraper, and a later undated document
then extracts different records than it would on a fresh instance — the
carry-over context is not fresh per document. -/
theorem final_date_leak_counterexample :
    (FinalScheduleScraper.extract_schedule_data none datedDoc "Meet").map
        Prod.snd = Except.ok (some "2025-06-21") ∧
    ¬ ((FinalScheduleScraper.extract_schedule_data (some "2025-06-21")
          undatedDoc "Meet").map Prod.fst =
       (FinalScheduleScraper.extract_schedule_data none undatedDoc
          "Meet").map Prod.fst) := by decide

/-- C10 (amended): the prelim scraper resets its carry-over date and
session at the start of every document parse, so its extraction is
independent of whatever earlier parses left on the instance. -/
theorem prelim_extract_fresh_context (s1 s2 : PrelimState)
    (pdf : List (List (List Row))) (meet : String) :
    ScheduleScraper.extract_schedule_data s1 pdf meet =
      ScheduleScraper.extract_schedule_data s2 pdf meet := rfl

/-- C4 (counterexample): the prelim scraper's upsert sends its batch
unmodified, so two distinct records sharing the uniqueness key both reach
the store — no deduplication happens on that path. -/
theorem prelim_upsert_keeps_duplicate_keys :
    ScheduleScraper.upsertBatch [dupFirst, dupSecond] =
      [dupFirst, dupSecond] ∧
    ScheduleScraper.entryKey dupFirst = ScheduleScraper.entryKey dupSecond ∧
    dupFirst ≠ dupSecond ∧
    ((ScheduleScraper.upsertBatch [dupFirst, dupSecond]).filter
        (fun e => decide (ScheduleScraper.entryKey e =
          ScheduleScraper.entryKey dupFirst))).length = 2 := by decide

/-- C4 (amended): the final scraper's upsert deduplicates by key with
last-seen-wins (for every key the sent batch holds exactly the last input
record with that key, or nothing) and reports the removed count exactly
when duplicates were removed; the prelim scraper's upsert sends the batch
unmodified. -/
theorem final_upsert_batch_dedup (entries : List Entry) (k : EKey) :
    ((FinalScheduleScraper.upsertBatch entries).1.filter
        (fun e => decide (FinalScheduleScraper.entryKey e = k)) =
      (lastWithKey FinalScheduleScraper.entryKey entries k).toList) ∧
    ((FinalScheduleScraper.upsertBatch entries).2 =
      if (FinalScheduleScraper.upsertBatch entries).1.length < entries.length
      then some (entries.length -
        (FinalScheduleScraper.upsertBatch entries).1.length)
      else none) ∧
    (ScheduleScraper.upsertBatch entries = entries) := by
  refine ⟨?_, rfl, rfl⟩
  have h := values_filter_of_wf FinalScheduleScraper.entryKey k
    (pyDict FinalScheduleScraper.entryKey entries)
    (pyDict_keyFact FinalScheduleScraper.entryKey entries)
    (pyDict_keys_nodup FinalScheduleScraper.entryKey entries)
  rw [show (FinalScheduleScraper.upsertBatch entries).1 =
    (pyDict FinalScheduleScraper.entryKey entries).map Prod.snd from rfl]
  rw [h, kvLookup_pyDict_eq_lastWithKey]

/-- C8: the weight-category cleanup strips exactly a trailing
whitespace-plus-single-letter suffix in the range A–E: `81 A` → `81`, `81`
unchanged, `81 F` unchanged, and in general a trailing letter is removed
precisely when it lies in A–E. -/
theorem weight_class_suffix_range_bound :
    cleanWeightClass "81 A" = "81" ∧
    cleanWeightClass "81" = "81" ∧
    cleanWeightClass "81 F" = "81 F" ∧
    ∀ c : Char, cleanWeightClass (String.mk ['8', '1', ' ', c]) =
      if 'A' ≤ c ∧ c ≤ 'E' then "81"
      else pyStrip (String.mk ['8', '1', ' ', c]) := by
  refine ⟨by decide, by decide, by decide, ?_⟩
  intro c
  by_cases h : 'A' ≤ c ∧ c ≤ 'E'
  · rw [if_pos h]
    have hr : reSubGroupLetter ['8', '1', ' ', c] = ['8', '1'] := by
      simp [reSubGroupLetter, h, isPySpace]
    rw [cleanWeightClass, hr]
    decide
  · rw [if_neg h]
    have hr : reSubGroupLetter ['8', '1', ' ', c] = ['8', '1', ' ', c] := by
      simp [reSubGroupLetter, h]
    rw [cleanWeightClass, hr]

/-- C7: a table row gives rise to a header section exactly when it is
non-blank and at least 4 of the 5 keyword groups appear in its case-folded
cell text; and a table with no qualifying row is parsed through the
headerless fallback path. -/
theorem header_detection_four_of_five (table : List Row) (i : Nat)
    (row : Row) (meet : String) (st : PrelimState) :
    ((table.get? i = some row) →
      ((∃ sec ∈ ScheduleScraper.headerSections table,
          sec.start_idx = i + 1 ∧ sec.header_row = row) ↔
       (rowBlank row = false ∧ 4 ≤ keywordsFound row))) ∧
    (ScheduleScraper.headerSections table = [] →
      ScheduleScraper.parse_table table meet st =
        (ScheduleScraper.parse_without_headers table meet, st)) := by
  constructor
  · intro hget
    constructor
    · rintro ⟨⟨srow, sidx, sdate⟩, hsec, hidx, hrow⟩
      rw [ScheduleScraper.headerSections, List.mem_filterMap] at hsec
      obtain ⟨j, hj, hg⟩ := hsec
      cases hgj : table.get? j with
      | none => rw [hgj] at hg; simp at hg
      | some row2 =>
        rw [hgj] at hg
        by_cases hb : rowBlank row2
        · simp [hb] at hg
        · by_cases hc : 4 ≤ keywordsFound row2
          · simp [hb, hc] at hg
            have hr2 : row2 = row := by
              rw [hg.1]
              exact hrow
            rw [← hr2]
            exact ⟨by simpa using hb, hc⟩
          · simp [hb, hc] at hg
    · rintro ⟨hb, hc⟩
      refine ⟨⟨row, i + 1, lookBackDate table i⟩, ?_, rfl, rfl⟩
      rw [ScheduleScraper.headerSections, List.mem_filterMap]
      refine ⟨i, ?_, ?_⟩
      · rcases List.get?_eq_some.mp hget with ⟨hlt, _⟩
        exact List.mem_range.mpr hlt
      · rw [hget]
        simp [hb, hc]
  · intro h
    rw [ScheduleScraper.parse_table, h]
    simp

/-- C1: in both scrapers' dry-run reconciliation, every key of the new
record set absent from the old set lands in to_add, a key present in both
with the tracked fields differing lands in to_update carrying both records,
any other key present in both lands in unchanged; the partitions carry only
new-set keys (keys only in the old set never appear), cover exactly the new
key set, and are pairwise disjoint; the record carried for a key is always
the last record with that key in input order; and in the prelim scraper the
date is part of the key, so equal keys force equal dates (the date can never
be the differing tracked field there). -/
theorem dry_run_reconciliation_partitions (existing new_entries : List Entry) :
    (∀ e, e ∈ (FinalScheduleScraper.dry_run existing new_entries).1 ↔
        (lastWithKey FinalScheduleScraper.entryKey new_entries
            (FinalScheduleScraper.entryKey e) = some e ∧
         lastWithKey FinalScheduleScraper.entryKey existing
            (FinalScheduleScraper.entryKey e) = none)) ∧
    (∀ ex e,
        (ex, e) ∈ (FinalScheduleScraper.dry_run existing new_entries).2.1 ↔
        (lastWithKey FinalScheduleScraper.entryKey new_entries
            (FinalScheduleScraper.entryKey e) = some e ∧
         lastWithKey FinalScheduleScraper.entryKey existing
            (FinalScheduleScraper.entryKey e) = some ex ∧
         FinalScheduleScraper.trackedDiffer ex e = true)) ∧
    (∀ e, e ∈ (FinalScheduleScraper.dry_run existing new_entries).2.2 ↔
        (lastWithKey FinalScheduleScraper.entryKey new_entries
            (FinalScheduleScraper.entryKey e) = some e ∧
         ∃ ex, lastWithKey FinalScheduleScraper.entryKey existing
            (FinalScheduleScraper.entryKey e) = some ex ∧
          FinalScheduleScraper.trackedDiffer ex e = false)) ∧
    (∀ k,
      ((∃ e ∈ (FinalScheduleScraper.dry_run existing new_entries).1,
          FinalScheduleScraper.entryKey e = k) ∨
       (∃ q ∈ (FinalScheduleScraper.dry_run existing new_entries).2.1,
          FinalScheduleScraper.entryKey q.2 = k) ∨
       (∃ e ∈ (FinalScheduleScraper.dry_run existing new_entries).2.2,
          FinalScheduleScraper.entryKey e = k)) ↔
      ∃ x ∈ new_entries, FinalScheduleScraper.entryKey x = k) ∧
    (∀ k,
      ¬ ((∃ e ∈ (FinalScheduleScraper.dry_run existing new_entries).1,
            FinalScheduleScraper.entryKey e = k) ∧
         (∃ q ∈ (FinalScheduleScraper.dry_run existing new_entries).2.1,
            FinalScheduleScraper.entryKey q.2 = k)) ∧
      ¬ ((∃ e ∈ (FinalScheduleScraper.dry_run existing new_entries).1,
            FinalScheduleScraper.entryKey e = k) ∧
         (∃ e2 ∈ (FinalScheduleScraper.dry_run existing new_entries).2.2,
            FinalScheduleScraper.entryKey e2 = k)) ∧
      ¬ ((∃ q ∈ (FinalScheduleScraper.dry_run existing new_entries).2.1,
            FinalScheduleScraper.entryKey q.2 = k) ∧
         (∃ e2 ∈ (FinalScheduleScraper.dry_run existing new_entries).2.2,
            FinalScheduleScraper.entryKey e2 = k))) ∧
    (∀ e, e ∈ (ScheduleScraper.dry_run existing new_entries).1 ↔
        (lastWithKey ScheduleScraper.entryKey new_entries
            (ScheduleScraper.entryKey e) = some e ∧
         lastWithKey ScheduleScraper.entryKey existing
            (ScheduleScraper.entryKey e) = none)) ∧
    (∀ ex e,
        (ex, e) ∈ (ScheduleScraper.dry_run existing new_entries).2.1 ↔
        (lastWithKey ScheduleScraper.entryKey new_entries
            (ScheduleScraper.entryKey e) = some e ∧
         lastWithKey ScheduleScraper.entryKey existing
            (ScheduleScraper.entryKey e) = some ex ∧
         ScheduleScraper.trackedDiffer ex e = true)) ∧
    (∀ e, e ∈ (ScheduleScraper.dry_run existing new_entries).2.2 ↔
        (lastWithKey ScheduleScraper.entryKey new_entries
            (ScheduleScraper.entryKey e) = some e ∧
         ∃ ex, lastWithKey ScheduleScraper.entryKey existing
            (ScheduleScraper.entryKey e) = some ex ∧
          ScheduleScraper.trackedDiffer ex e = false)) ∧
    (∀ k,
      ((∃ e ∈ (ScheduleScraper.dry_run existing new_entries).1,
          ScheduleScraper.entryKey e = k) ∨
       (∃ q ∈ (ScheduleScraper.dry_run existing new_entries).2.1,
          ScheduleScraper.entryKey q.2 = k) ∨
       (∃ e ∈ (ScheduleScraper.dry_run existing new_entries).2.2,
          ScheduleScraper.entryKey e = k)) ↔
      ∃ x ∈ new_entries, ScheduleScraper.entryKey x = k) ∧
    (∀ k,
      ¬ ((∃ e ∈ (ScheduleScraper.dry_run existing new_entries).1,
            ScheduleScraper.entryKey e = k) ∧
         (∃ q ∈ (ScheduleScraper.dry_run existing new_entries).2.1,
            ScheduleScraper.entryKey q.2 = k)) ∧
      ¬ ((∃ e ∈ (ScheduleScraper.dry_run existing new_entries).1,
            ScheduleScraper.entryKey e = k) ∧
         (∃ e2 ∈ (ScheduleScraper.dry_run existing new_entries).2.2,
            ScheduleScraper.entryKey e2 = k)) ∧
      ¬ ((∃ q ∈ (ScheduleScraper.dry_run existing new_entries).2.1,
            ScheduleScraper.entryKey q.2 = k) ∧
         (∃ e2 ∈ (ScheduleScraper.dry_run existing new_entries).2.2,
            ScheduleScraper.entryKey e2 = k))) ∧
    (∀ ex e, ScheduleScraper.entryKey ex = ScheduleScraper.entryKey e →
      ex.date = e.date) := by
  obtain ⟨f1, f2, f3⟩ := diffPartition_pyDict_spec FinalScheduleScraper.entryKey
    FinalScheduleScraper.trackedDiffer existing new_entries
  obtain ⟨f4, f5⟩ := diffPartition_pyDict_cover FinalScheduleScraper.entryKey
    FinalScheduleScraper.trackedDiffer existing new_entries
  obtain ⟨p1, p2, p3⟩ := diffPartition_pyDict_spec ScheduleScraper.entryKey
    ScheduleScraper.trackedDiffer existing new_entries
  obtain ⟨p4, p5⟩ := diffPartition_pyDict_cover ScheduleScraper.entryKey
    ScheduleScraper.trackedDiffer existing new_entries
  exact ⟨f1, f2, f3, f4, f5, p1, p2, p3, p4, p5,
    fun ex e h => congrArg (fun q => q.1) h⟩
